import Mathlib

/-
Verification of the `thread_pool` repository (a worker pool that solves
quadratic equations in parallel).

The development shallowly embeds the two halves of the program:

* `square_solver.cpp` : the job function `calculate_square_roots` is embedded
  as a pure Lean function.  C `double` arithmetic is modelled by the exact
  rational type `Q` below (all code paths exercised by the theorems stay
  inside exactly-representable values, where `double` and `Q` agree), and
  `snprintf`-style formatting with the C format `%.6g` is modelled by
  `format_g6`.  `std::stoi` is modelled by `stoi` (base 10, leading
  whitespace, optional sign, trailing garbage ignored, `int` range check).

* `worker_pool.{hpp,cpp}` : the pool is embedded as a state machine.
  `PoolState` carries the job queue, the result queue (the queue of futures,
  identified by submission index = slot id), the shared promise/future cells
  (`slots`), the stop flags and the condition-variable / join bookkeeping.
  The public operations `WorkerPool.set_job`, `WorkerPool.get_answer`,
  `WorkerPool.stop`, the destructor chain `WorkerPool.destruct` and one
  worker-loop iteration `Worker.iteration` / `Worker.fulfill` are translated
  directly from `worker_pool.cpp`.  Arbitrary thread interleaving is the
  transition relation `Step`; `Reachable` are the states of any execution.
-/

/-! ## Exact rational model of C `double` values -/

/-- Exact rational number (numerator/denominator, denominator positive by
construction).  Models the C `double` values flowing through
`calculate_square_roots`; on the integer inputs handled by the theorems all
intermediate values are exactly representable, where `double` arithmetic and
exact rational arithmetic coincide. -/
structure Q where
  num : Int
  den : Nat

/-- Model of `static_cast<double>` of an `int`. -/
def Q.ofInt (i : Int) : Q := ⟨i, 1⟩

/-- Model of `double` addition. -/
def Q.add (a b : Q) : Q := ⟨a.num * b.den + b.num * a.den, a.den * b.den⟩

/-- Model of `double` subtraction. -/
def Q.sub (a b : Q) : Q := ⟨a.num * b.den - b.num * a.den, a.den * b.den⟩

/-- Model of `double` multiplication. -/
def Q.mul (a b : Q) : Q := ⟨a.num * b.num, a.den * b.den⟩

/-- Model of `double` negation. -/
def Q.neg (a : Q) : Q := ⟨-a.num, a.den⟩

/-- Model of `double` division.  Division by zero never happens on the code
paths the theorems exercise; the `⟨0, 1⟩` fallback keeps the function total. -/
def Q.div (a b : Q) : Q :=
  if b.num = 0 then ⟨0, 1⟩
  else if b.num < 0 then ⟨-(a.num * b.den), a.den * b.num.natAbs⟩
  else ⟨a.num * b.den, a.den * b.num.natAbs⟩

/-- Model of `double` comparison `a < b`. -/
def Q.blt (a b : Q) : Bool := a.num * b.den < b.num * a.den

/-- Model of `std::abs` on `double`. -/
def Q.qabs (a : Q) : Q := if a.num < 0 then Q.neg a else a

/-- Newton iteration for the integer square root, fuel-bounded so that it
reduces by structural recursion. -/
def isqrtGo (n : Nat) : Nat → Nat → Nat
  | 0, x => x
  | f+1, x =>
    let y := (x + n / x) / 2
    if y < x then isqrtGo n f y else x

/-- Integer square root (floor). -/
def isqrt (n : Nat) : Nat := if n ≤ 1 then n else isqrtGo n 200 n

/-- Model of `std::sqrt` on the rational model of `double`: exact whenever the
argument (in lowest terms) is a square of a rational — which covers every
discriminant the theorems evaluate — and a 12-decimal-digit approximation
otherwise (a `double` carries about 15.9 significant decimal digits). -/
def ratSqrt (q : Q) : Q :=
  if q.num ≤ 0 then ⟨0, 1⟩
  else
    let g := Nat.gcd q.num.toNat q.den
    let n := q.num.toNat / g
    let d := q.den / g
    if isqrt n * isqrt n = n ∧ isqrt d * isqrt d = d then ⟨isqrt n, isqrt d⟩
    else ⟨isqrt (n * 10 ^ 24 / d), 10 ^ 12⟩

/-- `decorate_float` from `square_solver.cpp`: flush values smaller than
`epsilon` in absolute value to `0` before printing. -/
def decorate_float (eps x : Q) : Q := if Q.blt (Q.qabs x) eps then ⟨0, 1⟩ else x

/-- Floor of a rational as an integer. -/
def ratFloorInt (q : Q) : Int := Int.fdiv q.num q.den

/-- Round to the nearest integer, ties to even — the rounding mode `printf`
applies when trimming significant digits. -/
def roundHalfEven (q : Q) : Int :=
  let f := ratFloorInt q
  let r := Q.sub q (Q.ofInt f)
  if Q.blt r ⟨1, 2⟩ then f
  else if Q.blt ⟨1, 2⟩ r then f + 1
  else if f % 2 = 0 then f else f + 1

/-- Decimal digits of a natural number (most significant first),
fuel-bounded. -/
def natDigitsGo : Nat → Nat → List Char
  | 0, _ => []
  | _, 0 => []
  | f+1, n => natDigitsGo f (n / 10) ++ [Char.ofNat (48 + n % 10)]

/-- Decimal digits of a natural number. -/
def natDigits (n : Nat) : List Char := if n = 0 then ['0'] else natDigitsGo 40 n

/-- Fuel-bounded base-10 logarithm. -/
def natLog10Go : Nat → Nat → Nat
  | 0, _ => 0
  | f+1, n => if n < 10 then 0 else natLog10Go f (n / 10) + 1

/-- Base-10 logarithm (floor) of a natural number. -/
def natLog10 (n : Nat) : Nat := natLog10Go 40 n

/-- For `0 < x < 1`, the least `k ≥ 1` with `1 ≤ x * 10 ^ k` (fuel-bounded). -/
def negExpGo (x : Q) : Nat → Nat
  | 0 => 0
  | f+1 =>
    let y := Q.mul x ⟨10, 1⟩
    if Q.blt y ⟨1, 1⟩ then negExpGo y f + 1 else 1

/-- Decimal exponent (floor of log10) of a positive rational. -/
def decExp (x : Q) : Int :=
  if Q.blt x ⟨1, 1⟩ then -(negExpGo x 400 : Int)
  else (natLog10 (ratFloorInt x).toNat : Int)

/-- `10 ^ k` for a signed exponent. -/
def qPowTen (k : Int) : Q :=
  if 0 ≤ k then ⟨(10 : Int) ^ k.toNat, 1⟩ else ⟨1, 10 ^ (-k).toNat⟩

/-- Strip trailing decimal zeros (the `%g` format drops them). -/
def stripZerosGo : Nat → Nat → Nat
  | 0, m => m
  | f+1, m => if m ≠ 0 ∧ m % 10 = 0 then stripZerosGo f (m / 10) else m

/-- Strip trailing decimal zeros of a 6-digit significand. -/
def stripZeros (m : Nat) : Nat := stripZerosGo 10 m

/-- A run of `'0'` characters. -/
def padZeros (k : Nat) : List Char := List.replicate k '0'

/-- Insert a decimal point after the first `k` digits. -/
def insertPointAfter (ds : List Char) (k : Nat) : List Char :=
  ds.take k ++ ['.'] ++ ds.drop k

/-- `printf("%.6g", x)` for a positive value: 6 significant digits, trailing
zeros stripped, fixed notation for exponents in `[-4, 5]` and scientific
notation (two-digit, signed exponent) otherwise. -/
def format_g6_pos (x : Q) : String :=
  let e := decExp x
  let m0 := (roundHalfEven (Q.mul x (qPowTen (5 - e)))).toNat
  let me1 : Nat × Int := if m0 = 10 ^ 6 then (10 ^ 5, e + 1) else (m0, e)
  let m := stripZeros me1.1
  let e1 := me1.2
  let ds := natDigits m
  let nd := ds.length
  if -4 ≤ e1 ∧ e1 < 6 then
    if e1 < 0 then String.mk ('0' :: '.' :: (padZeros ((-e1).toNat - 1) ++ ds))
    else if nd ≤ e1.toNat + 1 then String.mk (ds ++ padZeros (e1.toNat + 1 - nd))
    else String.mk (insertPointAfter ds (e1.toNat + 1))
  else
    let mant := if nd = 1 then ds else insertPointAfter ds 1
    let esign := if e1 < 0 then "-" else "+"
    let eabs := e1.natAbs
    let edigits := if eabs < 10 then String.mk ('0' :: natDigits eabs) else String.mk (natDigits eabs)
    String.mk mant ++ "e" ++ esign ++ edigits

/-- `printf("%.6g", x)` — the formatting `square_solver.cpp` applies through
`snprintf(format_buf, ..., "%.6g", ...)`. -/
def format_g6 (x : Q) : String :=
  if x.num = 0 then "0"
  else if x.num < 0 then "-" ++ format_g6_pos (Q.neg x)
  else format_g6_pos x

/-! ## Model of `std::stoi` -/

/-- The two exceptions `std::stoi` can raise, as caught in
`calculate_square_roots`. -/
inductive StoiError
  | invalid_argument
  | out_of_range
deriving DecidableEq

/-- C locale whitespace (`isspace`). -/
def isSpaceChar (ch : Char) : Bool :=
  ch = ' ' || ch = '\t' || ch = '\n' || ch = Char.ofNat 11 || ch = Char.ofNat 12 || ch = '\r'

/-- ASCII decimal digit. -/
def isDigitChar (ch : Char) : Bool := '0' ≤ ch && ch ≤ '9'

/-- Value of a digit string. -/
def digitsToNat (l : List Char) : Nat := l.foldl (fun a ch => a * 10 + (ch.toNat - 48)) 0

/-- Model of `std::stoi(s)` (base 10): skip leading whitespace, optional sign,
at least one digit (else `invalid_argument`), ignore trailing characters,
raise `out_of_range` outside the 32-bit `int` range. -/
def stoi (s : String) : Except StoiError Int :=
  let cs := s.data.dropWhile isSpaceChar
  let sr : Int × List Char :=
    match cs with
    | '-' :: t => (-1, t)
    | '+' :: t => (1, t)
    | _ => (1, cs)
  let ds := sr.2.takeWhile isDigitChar
  if ds.isEmpty then .error .invalid_argument
  else
    let v : Int := sr.1 * (digitsToNat ds : Int)
    if v < -2147483648 ∨ 2147483647 < v then .error .out_of_range
    else .ok v

/-! ## The job function `calculate_square_roots` -/

/-- The `snprintf(answer.data(), ..., "(%s %s %s) => ", ...)` echo of the
three input tokens that starts every answer. -/
def answer_header (a b c : String) : String :=
  "(" ++ a ++ " " ++ b ++ " " ++ c ++ ") => "

/-- `calculate_square_roots` from `square_solver.cpp`, translated clause by
clause: echo of the inputs; the three `stoi` calls inside `try`/`catch`
(first failure wins, with the caught exception deciding the text); the
`a == 0` linear branch (`b == 0` gives the any-x answer, `c == 0` the zero
root, otherwise `x = b / c`); the quadratic branch with discriminant
`b*b - 4*a*c`, epsilon comparisons, the `-0.5 * (b + sign(b) * sqrt(d))`
root pair and the extremum `-b / (2*a)` tagged `Xmin`/`Xmax`. -/
def calculate_square_roots (a_str b_str c_str : String) : String :=
  let answer := answer_header a_str b_str c_str
  match stoi a_str, stoi b_str, stoi c_str with
  | .error .invalid_argument, _, _ => answer ++ "invalid argument"
  | .error .out_of_range, _, _ => answer ++ "out of range"
  | .ok _, .error .invalid_argument, _ => answer ++ "invalid argument"
  | .ok _, .error .out_of_range, _ => answer ++ "out of range"
  | .ok _, .ok _, .error .invalid_argument => answer ++ "invalid argument"
  | .ok _, .ok _, .error .out_of_range => answer ++ "out of range"
  | .ok a, .ok b, .ok c =>
    let eps : Q := ⟨1, 10 ^ 7⟩
    if a = 0 then
      if b = 0 then answer ++ "(x ∈ R)"
      else if c = 0 then answer ++ "(0)"
      else
        let x := Q.div (Q.ofInt b) (Q.ofInt c)
        answer ++ "(" ++ format_g6 (decorate_float eps x) ++ ")"
    else
      let d := Q.sub (Q.mul (Q.ofInt b) (Q.ofInt b)) (Q.mul (Q.mul ⟨4, 1⟩ (Q.ofInt a)) (Q.ofInt c))
      let body :=
        if Q.blt d (Q.neg eps) then "no roots"
        else if Q.blt (Q.qabs d) eps then
          "(" ++ format_g6 (decorate_float eps (Q.div (Q.ofInt (-b)) (Q.mul ⟨2, 1⟩ (Q.ofInt a)))) ++ ")"
        else
          let dsq := ratSqrt d
          let bsign : Q := if b < 0 then ⟨-1, 1⟩ else ⟨1, 1⟩
          let temp := Q.mul (Q.neg ⟨1, 2⟩) (Q.add (Q.ofInt b) (Q.mul bsign dsq))
          let x1 := Q.div (Q.ofInt c) temp
          let x2 := Q.div temp (Q.ofInt a)
          "(" ++ format_g6 (decorate_float eps x1) ++ " " ++ format_g6 (decorate_float eps x2) ++ ")"
      let xext := Q.div (Q.ofInt (-b)) (Q.mul ⟨2, 1⟩ (Q.ofInt a))
      answer ++ body ++ " X" ++ (if 0 < a then "min" else "max") ++ "=" ++ format_g6 (decorate_float eps xext)

/-- `true` exactly when `stoi` would raise, i.e. the C call would throw. -/
def stoiFails (s : String) : Bool :=
  match stoi s with
  | .error _ => true
  | .ok _ => false

/-! ## State-machine model of the worker pool -/

/-- One job request: the function and its three-string argument tuple
(the first two components of the `Job::JobRequest` tuple; the promise is
identified by the slot id it is paired with in `PoolState`). -/
structure Job where
  func : String × String × String → String
  args : String × String × String

/-- `std::apply(func, args)` — the value the worker computes for a job. -/
def Job.eval (j : Job) : String := j.func j.args

/-- Global state of one `WorkerPool` together with the ghost history needed
to state ordering properties.

* `submitted` — ghost: every job ever passed to `set_job`, in call order; the
  slot id of the `i`-th submission is `i`.
* `jobs` — the `std::queue<Job::JobRequest>` of pending jobs, each entry the
  slot id of its promise paired with the job.
* `results` — the `std::queue<std::future<...>>`, as the slot ids it holds.
* `slots` — the shared promise/future cells: `some v` once fulfilled.
* `inFlight` — job requests a worker has popped but whose promise it has not
  yet fulfilled.
* `collected` — ghost: every value `get_answer` has returned, in call order.
* `stop_flag` — `WorkerPool::stop_flag`.
* `worker_stop_flags` — each `Worker::stop_flag`.
* `jobs_cv_notified` / `results_cv_notified` — whether `cv_jobs` /
  `cv_results` has been notified since the state of interest began.
* `workers_joined` — whether each worker's `std::thread` has been joined. -/
structure PoolState where
  submitted : List Job
  jobs : List (Nat × Job)
  results : List Nat
  slots : Nat → Option String
  inFlight : List (Nat × Job)
  collected : List String
  stop_flag : Bool
  worker_stop_flags : List Bool
  jobs_cv_notified : Bool
  results_cv_notified : Bool
  workers_joined : List Bool

/-- The pool right after the `WorkerPool` constructor ran with `n` workers:
empty queues, no stop signals, nothing joined. -/
def WorkerPool.init (n : Nat) : PoolState :=
  { submitted := []
    jobs := []
    results := []
    slots := fun _ => none
    inFlight := []
    collected := []
    stop_flag := false
    worker_stop_flags := List.replicate n false
    jobs_cv_notified := false
    results_cv_notified := false
    workers_joined := List.replicate n false }

/-- `WorkerPool::set_job` from `worker_pool.cpp`: create a promise/future
pair (its slot id is the submission index), push the future onto `results`
under `m_results` and notify `cv_results`, then push the job request onto
`jobs` under `m_jobs` and notify `cv_jobs`.  Total — the call never waits
for anything. -/
def WorkerPool.set_job (s : PoolState) (j : Job) : PoolState :=
  { s with
    submitted := s.submitted ++ [j]
    results := s.results ++ [s.submitted.length]
    results_cv_notified := true
    jobs := s.jobs ++ [(s.submitted.length, j)]
    jobs_cv_notified := true }

/-- Outcome of one `WorkerPool::get_answer` call attempt at a given state:
still blocked (in the `cv_results.wait` or in `result.get()`), returned the
empty optional, or returned a value together with the successor state. -/
inductive GetAnswerResult
  | blocked
  | stopped
  | value (v : String) (s' : PoolState)

/-- `WorkerPool::get_answer` from `worker_pool.cpp`: wait on `cv_results`
until `!results.empty() || stop_flag`; then if `stop_flag && results.empty()`
return the empty optional; otherwise pop the front future and block in its
`get()` until the matching promise is fulfilled, returning the value. -/
def WorkerPool.get_answer (s : PoolState) : GetAnswerResult :=
  if s.results.isEmpty = true ∧ s.stop_flag = false then .blocked
  else if s.stop_flag = true ∧ s.results.isEmpty = true then .stopped
  else
    match s.results with
    | [] => .blocked
    | sid :: rest =>
      match s.slots sid with
      | none => .blocked
      | some v => .value v { s with results := rest, collected := s.collected ++ [v] }

/-- `WorkerPool::stop` from `worker_pool.hpp` (lines 218-221): store `true`
into the pool's `stop_flag` and call `cv_results.notify_all()` — and nothing
else: the workers' own stop flags, `cv_jobs` and the threads are untouched. -/
def WorkerPool.stop (s : PoolState) : PoolState :=
  { s with stop_flag := true, results_cv_notified := true }

/-- The `WorkerPool` destructor chain: the `~WorkerPool` body calls
`w->stop()` on every worker and `cv_jobs.notify_all()`; afterwards the
member `workers` vector is destroyed and each `~Worker` joins its thread. -/
def WorkerPool.destruct (s : PoolState) : PoolState :=
  { s with
    worker_stop_flags := s.worker_stop_flags.map (fun _ => true)
    jobs_cv_notified := true
    workers_joined := s.workers_joined.map (fun _ => true) }

/-- The predicate worker `k` waits on inside `cv.wait(l, ...)`:
`stop_flag.load() || !jobs.empty()` (with `stop_flag` the *worker's* flag). -/
def Worker.wakeCond (s : PoolState) (k : Nat) : Prop :=
  s.worker_stop_flags.getD k false = true ∨ s.jobs.isEmpty = false

instance (s : PoolState) (k : Nat) : Decidable (Worker.wakeCond s k) :=
  inferInstanceAs (Decidable (_ ∨ _))

/-- The predicate the consumer waits on inside `cv_results.wait(l, ...)`:
`!results.empty() || stop_flag.load()`. -/
def resultsWakeCond (s : PoolState) : Prop :=
  s.results.isEmpty = false ∨ s.stop_flag = true

instance (s : PoolState) : Decidable (resultsWakeCond s) :=
  inferInstanceAs (Decidable (_ ∨ _))

/-- Outcome of one iteration of worker `k`'s loop `Worker::operator()` at a
given state: still blocked in `cv.wait`; `break` out of the loop (stop flag
raised and no jobs left); or pop the front job request, unlock, and go
compute it (the successor state moves the request to `inFlight`). -/
inductive WorkerIterResult
  | blocked
  | exit
  | run (e : Nat × Job) (s' : PoolState)

/-- One iteration of `Worker::operator()` from `worker_pool.cpp`: wait until
`stop_flag.load() || !jobs.empty()`; then `break` if `stop_flag.load() &&
jobs.empty()`; otherwise move func/args/promise out of `jobs.front()`,
`jobs.pop()` and unlock.  The subsequent `promise.set_value(...)` is the
separate step `Worker.fulfill`. -/
def Worker.iteration (s : PoolState) (k : Nat) : WorkerIterResult :=
  if s.worker_stop_flags.getD k false = false ∧ s.jobs.isEmpty = true then .blocked
  else if s.worker_stop_flags.getD k false = true ∧ s.jobs.isEmpty = true then .exit
  else
    match s.jobs with
    | [] => .blocked
    | e :: rest => .run e { s with jobs := rest, inFlight := s.inFlight ++ [e] }

/-- `promise.set_value(std::apply(func, args))` — executed after the queue
lock was released: fulfill slot `e.1` with the job's value and retire the
request from `inFlight`. -/
def Worker.fulfill (s : PoolState) (e : Nat × Job) : PoolState :=
  { s with
    slots := fun n => if n = e.1 then some e.2.eval else s.slots n
    inFlight := s.inFlight.filter (fun p => p.1 != e.1) }

/-- One transition of the whole program: some thread performs one atomic
step.  The producer may submit at any time, any worker may pop the job queue
or fulfill a popped request at any time, the consumer may complete a
`get_answer` whenever it would not block, and `stop` / destruction may be
invoked at any time.  This interleaving freedom is what "arbitrary relative
worker speeds" means in the model. -/
inductive Step : PoolState → PoolState → Prop
  | submit (s : PoolState) (j : Job) : Step s (WorkerPool.set_job s j)
  | worker_run (s : PoolState) (k : Nat) (e : Nat × Job) (s' : PoolState) :
      Worker.iteration s k = .run e s' → Step s s'
  | worker_fulfill (s : PoolState) (e : Nat × Job) :
      e ∈ s.inFlight → Step s (Worker.fulfill s e)
  | collect (s : PoolState) (v : String) (s' : PoolState) :
      WorkerPool.get_answer s = .value v s' → Step s s'
  | pool_stop (s : PoolState) : Step s (WorkerPool.stop s)
  | pool_destruct (s : PoolState) : Step s (WorkerPool.destruct s)

/-- States an execution can reach from a freshly constructed pool. -/
inductive Reachable : PoolState → Prop
  | init (n : Nat) : Reachable (WorkerPool.init n)
  | step {s s' : PoolState} : Reachable s → Step s s' → Reachable s'

/-! ## Primitive-action view of `set_job` and the worker loop

For the two claims about *ordering inside* one operation (the result-queue
push happening before the job-queue push, and the job running outside the
job-queue lock), the bodies of `WorkerPool::set_job` and of one worker-loop
iteration are additionally transliterated statement by statement. -/

/-- The two mutexes of the pool. -/
inductive MutexId
  | jobsMutex
  | resultsMutex
deriving DecidableEq

/-- Primitive statements appearing in `worker_pool.cpp`, in source order. -/
inductive Prim
  | makePromiseFuture
  | lock (m : MutexId)
  | unlock (m : MutexId)
  | waitCv (m : MutexId)
  | notifyCv (m : MutexId)
  | pushResultFuture
  | pushJobRequest
  | checkStopBreak
  | popJobFront
  | invokeJob
  | fulfillPromise
deriving DecidableEq

/-- `true` exactly for the statement that can block the calling thread
waiting for new data (a condition-variable wait). -/
def Prim.isBlockingWait : Prim → Bool
  | .waitCv _ => true
  | _ => false

/-- The body of `WorkerPool::set_job` (worker_pool.cpp lines 21-36),
statement by statement: make the promise/future pair; push the future under
`m_results` and notify `cv_results`; push the job request under `m_jobs` and
notify `cv_jobs`. -/
def set_job_prims : List Prim :=
  [Prim.makePromiseFuture,
   Prim.lock MutexId.resultsMutex,
   Prim.pushResultFuture,
   Prim.unlock MutexId.resultsMutex,
   Prim.notifyCv MutexId.resultsMutex,
   Prim.lock MutexId.jobsMutex,
   Prim.pushJobRequest,
   Prim.unlock MutexId.jobsMutex,
   Prim.notifyCv MutexId.jobsMutex]

/-- The body of one iteration of `Worker::operator()` (worker_pool.cpp lines
56-75), statement by statement: construct the `unique_lock`; `cv.wait`;
check the stop/empty break condition; move out and pop the front job;
`l.unlock()`; invoke the job function; fulfill the promise. -/
def worker_loop_prims : List Prim :=
  [Prim.lock MutexId.jobsMutex,
   Prim.waitCv MutexId.jobsMutex,
   Prim.checkStopBreak,
   Prim.popJobFront,
   Prim.unlock MutexId.jobsMutex,
   Prim.invokeJob,
   Prim.fulfillPromise]

/-- Whether the job-queue mutex `m_jobs` is held after executing a prefix of
primitive statements (the lock is free when the prefix begins, as it is at
the top of each loop iteration and of each `set_job` call). -/
def jobsLockHeld (l : List Prim) : Bool :=
  l.foldl
    (fun h p =>
      match p with
      | Prim.lock MutexId.jobsMutex => true
      | Prim.unlock MutexId.jobsMutex => false
      | _ => h)
    false

/-! ## Thread-count configuration -/

/-- `WorkerPool::nthreads = std::thread::hardware_concurrency()`
(worker_pool.cpp line 18), as a function of the host's hardware
parallelism. -/
def WorkerPool.nthreads (hardware_concurrency : Nat) : Nat := hardware_concurrency

/-- The default argument of the `WorkerPool` constructor
(`WorkerPool(unsigned num_threads = nthreads)`, worker_pool.hpp line 175). -/
def WorkerPool.default_num_threads (hardware_concurrency : Nat) : Nat :=
  WorkerPool.nthreads hardware_concurrency

/-- The worker count `main` actually requests:
`WorkerPool worker_pool(WorkerPool::nthreads - 2)` (main.cpp line 33). -/
def main_num_threads (hardware_concurrency : Nat) : Nat :=
  WorkerPool.nthreads hardware_concurrency - 2

/-! ## Execution invariant -/

/-- Inversion of a successful worker-loop iteration: it popped the head of
the job queue and moved it to `inFlight`. -/
theorem Worker.iteration_run_inv {s : PoolState} {k : Nat} {e : Nat × Job} {s' : PoolState}
    (h : Worker.iteration s k = .run e s') :
    ∃ rest, s.jobs = e :: rest ∧
      s' = { s with jobs := rest, inFlight := s.inFlight ++ [e] } := by
  unfold Worker.iteration at h
  split at h
  · cases h
  · split at h
    · cases h
    · cases hj : s.jobs with
      | nil => rw [hj] at h; cases h
      | cons a rest =>
        rw [hj] at h
        cases h
        exact ⟨rest, rfl, rfl⟩

/-- Inversion of a `get_answer` call that returned a value: the result queue
was nonempty, its head slot was fulfilled with that value, and the head was
popped. -/
theorem WorkerPool.get_answer_value_inv {s : PoolState} {v : String} {s' : PoolState}
    (h : WorkerPool.get_answer s = .value v s') :
    ∃ sid rest, s.results = sid :: rest ∧ s.slots sid = some v ∧
      s' = { s with results := rest, collected := s.collected ++ [v] } := by
  unfold WorkerPool.get_answer at h
  split at h
  · cases h
  · split at h
    · cases h
    · split at h
      · cases h
      · rename_i sid rest hr
        split at h
        · cases h
        · rename_i w hv
          cases h
          exact ⟨sid, rest, hr, hv, rfl⟩

/-- The execution invariant.  Slot ids are submission indices, so every
entry of every queue, every fulfilled promise and every collected value is
tied back to the submission history:

* the result queue holds exactly the slot ids of the not-yet-collected
  submissions, in submission order (`len_eq`, `results_shape`);
* every queued or in-flight job request carries the job of its slot id
  (`jobs_ok`, `inflight_ok`);
* a fulfilled slot holds the value of the job submitted at that index
  (`slots_ok`);
* the `i`-th collected value is the value of the `i`-th submitted job
  (`collected_ok`). -/
structure PoolInv (s : PoolState) : Prop where
  len_eq : s.collected.length + s.results.length = s.submitted.length
  results_shape : ∀ i, i < s.results.length → s.results[i]? = some (s.collected.length + i)
  jobs_ok : ∀ e ∈ s.jobs, s.submitted[e.1]? = some e.2
  inflight_ok : ∀ e ∈ s.inFlight, s.submitted[e.1]? = some e.2
  slots_ok : ∀ n v, s.slots n = some v → (s.submitted[n]?).map Job.eval = some v
  collected_ok : ∀ i, i < s.collected.length → s.collected[i]? = (s.submitted[i]?).map Job.eval

/-- A fresh pool satisfies the invariant. -/
theorem poolInv_init (n : Nat) : PoolInv (WorkerPool.init n) :=
  { len_eq := rfl
    results_shape := by intro i hi; simp [WorkerPool.init] at hi
    jobs_ok := by intro e he; simp [WorkerPool.init] at he
    inflight_ok := by intro e he; simp [WorkerPool.init] at he
    slots_ok := by intro n v h; simp [WorkerPool.init] at h
    collected_ok := by intro i hi; simp [WorkerPool.init] at hi }

/-- `set_job` preserves the invariant. -/
theorem poolInv_set_job {s : PoolState} (hs : PoolInv s) (j : Job) : PoolInv (WorkerPool.set_job s j) := by
  obtain ⟨hlen, hshape, hjobs, hinf, hslots, hcoll⟩ := hs
  refine ⟨?_, ?_, ?_, ?_, ?_, ?_⟩
  · simp only [WorkerPool.set_job, List.length_append, List.length_cons, List.length_nil]
    omega
  · intro i hi
    simp only [WorkerPool.set_job, List.length_append, List.length_cons, List.length_nil] at hi ⊢
    by_cases hlt : i < s.results.length
    · rw [List.getElem?_append_left hlt]
      exact hshape i hlt
    · have hieq : i = s.results.length := by omega
      subst hieq
      rw [List.getElem?_concat_length]
      have hL : s.submitted.length = s.collected.length + s.results.length := hlen.symm
      rw [hL]
  · intro e he
    simp only [WorkerPool.set_job, List.mem_append, List.mem_singleton] at he
    simp only [WorkerPool.set_job]
    rcases he with he | he
    · have h1 := hjobs e he
      have h2 : e.1 < s.submitted.length := (List.getElem?_eq_some_iff.mp h1).1
      rw [List.getElem?_append_left h2]
      exact h1
    · subst he
      exact List.getElem?_concat_length _ _
  · intro e he
    simp only [WorkerPool.set_job] at he
    simp only [WorkerPool.set_job]
    have h1 := hinf e he
    have h2 : e.1 < s.submitted.length := (List.getElem?_eq_some_iff.mp h1).1
    rw [List.getElem?_append_left h2]
    exact h1
  · intro n v h
    simp only [WorkerPool.set_job] at h
    simp only [WorkerPool.set_job]
    have h1 := hslots n v h
    have h2 : n < s.submitted.length := by
      rcases Option.map_eq_some'.mp h1 with ⟨a, ha, _⟩
      exact (List.getElem?_eq_some_iff.mp ha).1
    rw [List.getElem?_append_left h2]
    exact h1
  · intro i hi
    simp only [WorkerPool.set_job] at hi
    simp only [WorkerPool.set_job]
    have h1 := hcoll i hi
    have h2 : i < s.submitted.length := by omega
    rw [List.getElem?_append_left h2]
    exact h1

/-- A worker popping the job queue preserves the invariant. -/
theorem poolInv_worker_run {s : PoolState} {k : Nat} {e : Nat × Job} {s' : PoolState}
    (hs : PoolInv s) (h : Worker.iteration s k = .run e s') : PoolInv s' := by
  obtain ⟨rest, hjq, hseq⟩ := Worker.iteration_run_inv h
  subst hseq
  obtain ⟨hlen, hshape, hjobs, hinf, hslots, hcoll⟩ := hs
  refine ⟨hlen, hshape, ?_, ?_, hslots, hcoll⟩
  · intro x hx
    exact hjobs x (by rw [hjq]; exact List.mem_cons_of_mem _ hx)
  · intro x hx
    simp only [List.mem_append, List.mem_singleton] at hx
    rcases hx with hx | hx
    · exact hinf x hx
    · subst hx
      exact hjobs x (by rw [hjq]; exact List.mem_cons_self _ _)

/-- A worker fulfilling a promise preserves the invariant. -/
theorem poolInv_worker_fulfill {s : PoolState} {e : Nat × Job}
    (hs : PoolInv s) (he : e ∈ s.inFlight) : PoolInv (Worker.fulfill s e) := by
  obtain ⟨hlen, hshape, hjobs, hinf, hslots, hcoll⟩ := hs
  refine ⟨hlen, hshape, hjobs, ?_, ?_, hcoll⟩
  · intro x hx
    simp only [Worker.fulfill, List.mem_filter] at hx
    exact hinf x hx.1
  · intro n v h
    simp only [Worker.fulfill] at h ⊢
    by_cases hn : n = e.1
    · subst hn
      rw [if_pos rfl] at h
      cases h
      have h1 := hinf e he
      rw [h1]
      rfl
    · rw [if_neg hn] at h
      exact hslots n v h

/-- A successful `get_answer` preserves the invariant. -/
theorem poolInv_collect {s : PoolState} {v : String} {s' : PoolState}
    (hs : PoolInv s) (h : WorkerPool.get_answer s = .value v s') : PoolInv s' := by
  obtain ⟨sid, rest, hr, hv, hseq⟩ := WorkerPool.get_answer_value_inv h
  subst hseq
  obtain ⟨hlen, hshape, hjobs, hinf, hslots, hcoll⟩ := hs
  have hsid : sid = s.collected.length := by
    have h0 := hshape 0 (by rw [hr]; simp)
    rw [hr] at h0
    simp at h0
    omega
  refine ⟨?_, ?_, hjobs, hinf, hslots, ?_⟩
  · simp only [List.length_append, List.length_cons, List.length_nil]
    rw [hr] at hlen
    simp only [List.length_cons] at hlen
    omega
  · intro i hi
    have hi' : i < rest.length := hi
    show rest[i]? = some ((s.collected ++ [v]).length + i)
    have hlt : i + 1 < s.results.length := by rw [hr]; simp; omega
    have h1 := hshape (i + 1) hlt
    rw [hr] at h1
    simp only [List.getElem?_cons_succ] at h1
    rw [h1]
    simp only [List.length_append, List.length_cons, List.length_nil]
    congr 1
    omega
  · intro i hi
    have hi' : i < (s.collected ++ [v]).length := hi
    show (s.collected ++ [v])[i]? = Option.map Job.eval s.submitted[i]?
    simp only [List.length_append, List.length_cons, List.length_nil] at hi'
    by_cases hic : i < s.collected.length
    · rw [List.getElem?_append_left hic]
      exact hcoll i hic
    · have hieq : i = s.collected.length := by omega
      subst hieq
      rw [List.getElem?_concat_length]
      have h2 := hslots sid v hv
      rw [hsid] at h2
      exact h2.symm

/-- `stop` preserves the invariant (it only touches flags). -/
theorem poolInv_stop {s : PoolState} (hs : PoolInv s) : PoolInv (WorkerPool.stop s) :=
  ⟨hs.len_eq, hs.results_shape, hs.jobs_ok, hs.inflight_ok, hs.slots_ok, hs.collected_ok⟩

/-- Pool destruction preserves the invariant (it only touches flags and join
bookkeeping). -/
theorem poolInv_destruct {s : PoolState} (hs : PoolInv s) : PoolInv (WorkerPool.destruct s) :=
  ⟨hs.len_eq, hs.results_shape, hs.jobs_ok, hs.inflight_ok, hs.slots_ok, hs.collected_ok⟩

/-- Every step preserves the invariant. -/
theorem poolInv_step {s s' : PoolState} (hs : PoolInv s) (h : Step s s') : PoolInv s' := by
  cases h with
  | submit j => exact poolInv_set_job hs j
  | worker_run k e t hrun => exact poolInv_worker_run hs hrun
  | worker_fulfill e he => exact poolInv_worker_fulfill hs he
  | collect v t hc => exact poolInv_collect hs hc
  | pool_stop => exact poolInv_stop hs
  | pool_destruct => exact poolInv_destruct hs

/-- The invariant holds in every reachable state. -/
theorem poolInv_reachable {s : PoolState} (h : Reachable s) : PoolInv s := by
  induction h with
  | init n => exact poolInv_init n
  | step _ hstep ih => exact poolInv_step ih hstep

/-! ## A concrete execution (used by the witnesses) -/

/-- A concrete job used by the witness executions. -/
def demoJob : Job := { func := fun _ => "done", args := ("1", "2", "3") }

/-- Fresh pool with one worker. -/
def demoS0 : PoolState := WorkerPool.init 1

/-- After the producer submitted `demoJob`. -/
def demoS1 : PoolState := WorkerPool.set_job demoS0 demoJob

/-- After worker 0 popped the job. -/
def demoS2 : PoolState := { demoS1 with jobs := [], inFlight := [(0, demoJob)] }

/-- After worker 0 fulfilled the promise. -/
def demoS3 : PoolState := Worker.fulfill demoS2 (0, demoJob)

/-- After the consumer collected the result. -/
def demoS4 : PoolState := { demoS3 with results := [], collected := ["done"] }

/-- Worker 0's iteration at `demoS1` pops the submitted job. -/
theorem demo_iteration_run : Worker.iteration demoS1 0 = .run (0, demoJob) demoS2 := rfl

/-- The popped request is in flight at `demoS2`. -/
theorem demo_in_flight : (0, demoJob) ∈ demoS2.inFlight := by
  show (0, demoJob) ∈ [(0, demoJob)]
  exact List.mem_cons_self _ _

/-- `get_answer` at `demoS3` returns the fulfilled value. -/
theorem demo_get_answer : WorkerPool.get_answer demoS3 = .value "done" demoS4 := rfl

/-- The four-step execution submit/pop/fulfill/collect is reachable. -/
theorem demo_reachable : Reachable demoS4 :=
  Reachable.step
    (Reachable.step
      (Reachable.step
        (Reachable.step (Reachable.init 1) (Step.submit demoS0 demoJob))
        (Step.worker_run demoS1 0 (0, demoJob) demoS2 demo_iteration_run))
      (Step.worker_fulfill demoS2 (0, demoJob) demo_in_flight))
    (Step.collect demoS3 "done" demoS4 demo_get_answer)

/-! ## The claims -/

/-- Claim C1: in every reachable state of the pool — any number of `set_job`
calls by the producer, any number of completed `get_answer` calls by the
consumer, workers popping and fulfilling in arbitrary interleaving — the
`i`-th collected value is the result of the `i`-th submitted job.
Collection order is submission order, never completion order. -/
theorem collect_order_is_submission_order
    (s : PoolState) (h : Reachable s) (i : Nat) (hi : i < s.collected.length) :
    s.collected[i]? = (s.submitted[i]?).map Job.eval :=
  (poolInv_reachable h).collected_ok i hi

/-- Witness for C1 on the concrete four-step execution. -/
theorem collect_order_is_submission_order_demo :
    demoS4.collected[0]? = (demoS4.submitted[0]?).map Job.eval :=
  collect_order_is_submission_order demoS4 demo_reachable 0 (by decide)

/-- Claim C3: `get_answer` returns the empty optional exactly when the stop
flag has been raised and the result queue is empty; and whenever it returns
a value, it has popped the oldest result slot (the queue head), the value is
that slot's fulfilled content (what `result.get()` was blocking on), and the
rest of the queue is untouched. -/
theorem get_answer_empty_iff_stopped_and_drained (s : PoolState) :
    (WorkerPool.get_answer s = .stopped ↔ s.stop_flag = true ∧ s.results = []) ∧
    (∀ v s', WorkerPool.get_answer s = .value v s' →
      ∃ sid rest, s.results = sid :: rest ∧ s.slots sid = some v ∧
        s'.results = rest ∧ s'.collected = s.collected ++ [v]) := by
  constructor
  · constructor
    · intro h
      unfold WorkerPool.get_answer at h
      split at h
      · cases h
      · split at h
        · rename_i hc
          exact ⟨hc.1, List.isEmpty_iff.mp hc.2⟩
        · split at h
          · cases h
          · split at h
            · cases h
            · cases h
    · rintro ⟨hstop, hres⟩
      unfold WorkerPool.get_answer
      have h1 : ¬(s.results.isEmpty = true ∧ s.stop_flag = false) := by
        rw [hstop]; simp
      have h2 : s.stop_flag = true ∧ s.results.isEmpty = true := by
        rw [hstop, hres]; exact ⟨rfl, rfl⟩
      rw [if_neg h1, if_pos h2]
  · intro v s' h
    obtain ⟨sid, rest, hr, hv, hseq⟩ := WorkerPool.get_answer_value_inv h
    subst hseq
    exact ⟨sid, rest, hr, hv, rfl, rfl⟩

/-- Witness for C3: at `demoS3` the value case fires concretely. -/
theorem get_answer_empty_iff_stopped_and_drained_demo :
    ∃ sid rest, demoS3.results = sid :: rest ∧ demoS3.slots sid = some "done" ∧
      demoS4.results = rest ∧ demoS4.collected = demoS3.collected ++ ["done"] :=
  (get_answer_empty_iff_stopped_and_drained demoS3).2 "done" demoS4 demo_get_answer

/-- Claim C2 counterexample: `WorkerPool::stop` alone does not wake a worker
blocked on the job queue and does not join any thread.  At a fresh
one-worker pool, after `stop` the worker's wait predicate is still false
(its own stop flag is untouched and the job queue is empty), `cv_jobs` has
not been notified, and no thread has been joined. -/
theorem stop_alone_does_not_wake_workers_nor_join :
    ¬ Worker.wakeCond (WorkerPool.stop (WorkerPool.init 1)) 0 ∧
    (WorkerPool.stop (WorkerPool.init 1)).jobs_cv_notified = false ∧
    (WorkerPool.stop (WorkerPool.init 1)).worker_stop_flags = [false] ∧
    (WorkerPool.stop (WorkerPool.init 1)).workers_joined = [false] := by
  decide

/-- Claim C2 (amended): `WorkerPool::stop` raises the pool stop signal and
wakes threads blocked on the result queue (the consumer's wait predicate
becomes true), while leaving the workers' stop flags, `cv_jobs` and the
threads untouched; waking the job-queue waiters (by raising every worker's
stop flag and notifying `cv_jobs`) and joining every worker thread happen
in the destructor chain `~WorkerPool` / `~Worker`. -/
theorem stop_then_destructors_complete_shutdown (s : PoolState) :
    (WorkerPool.stop s).stop_flag = true ∧
    (WorkerPool.stop s).results_cv_notified = true ∧
    resultsWakeCond (WorkerPool.stop s) ∧
    (WorkerPool.stop s).jobs_cv_notified = s.jobs_cv_notified ∧
    (WorkerPool.stop s).worker_stop_flags = s.worker_stop_flags ∧
    (WorkerPool.stop s).workers_joined = s.workers_joined ∧
    (∀ b ∈ (WorkerPool.destruct s).worker_stop_flags, b = true) ∧
    (WorkerPool.destruct s).jobs_cv_notified = true ∧
    (∀ b ∈ (WorkerPool.destruct s).workers_joined, b = true) := by
  refine ⟨rfl, rfl, Or.inr rfl, rfl, rfl, rfl, ?_, rfl, ?_⟩
  · intro b hb
    obtain ⟨a, -, ha⟩ := List.mem_map.mp hb
    exact ha.symm
  · intro b hb
    obtain ⟨a, -, ha⟩ := List.mem_map.mp hb
    exact ha.symm

/-- Witness for the amended C2 at a fresh one-worker pool. -/
theorem stop_then_destructors_complete_shutdown_demo :
    resultsWakeCond (WorkerPool.stop demoS0) :=
  (stop_then_destructors_complete_shutdown demoS0).2.2.1

/-- Claim C4: `set_job` makes the promise/future pair first, pushes the
future onto the result queue strictly before pushing the job request onto
the job queue, contains no statement that waits for data, and its state
effect appends the new slot to the result queue and the request to the job
queue while leaving every promise cell untouched — it never waits for the
job to be computed. -/
theorem set_job_pushes_result_slot_before_job :
    set_job_prims.indexOf Prim.makePromiseFuture < set_job_prims.indexOf Prim.pushResultFuture ∧
    set_job_prims.indexOf Prim.pushResultFuture < set_job_prims.indexOf Prim.pushJobRequest ∧
    (∀ p ∈ set_job_prims, p.isBlockingWait = false) ∧
    ∀ s j, (WorkerPool.set_job s j).results = s.results ++ [s.submitted.length] ∧
      (WorkerPool.set_job s j).jobs = s.jobs ++ [(s.submitted.length, j)] ∧
      (WorkerPool.set_job s j).slots = s.slots ∧
      (WorkerPool.set_job s j).collected = s.collected :=
  ⟨by decide, by decide, by decide, fun s j => ⟨rfl, rfl, rfl, rfl⟩⟩

/-- Witness for C4 at a concrete state and job. -/
theorem set_job_pushes_result_slot_before_job_demo :
    (WorkerPool.set_job demoS0 demoJob).results = demoS0.results ++ [demoS0.submitted.length] :=
  (set_job_pushes_result_slot_before_job.2.2.2 demoS0 demoJob).1

/-- Claim C5 evaluation: what `calculate_square_roots` actually returns on
the three tuples of the end-to-end scenario.  The first matches the spec
(roots 1 and 2 with extremum); the second is `(-0.5)` — the code computes
`b / c` where the root of `2x - 4 = 0` is `-c / b = 2` — and the third is
the any-x answer even though `0 = 5` has no solution; in particular the
second is not the root-2 result the claim expects. -/
theorem end_to_end_scenario_actual_values :
    calculate_square_roots "1" "-3" "2" = "(1 -3 2) => (1 2) Xmin=1.5" ∧
    calculate_square_roots "0" "2" "-4" = "(0 2 -4) => (-0.5)" ∧
    calculate_square_roots "0" "2" "-4" ≠ "(0 2 -4) => (2)" ∧
    calculate_square_roots "0" "0" "5" = "(0 0 5) => (x ∈ R)" := by
  refine ⟨by decide, by decide, by decide, by decide⟩

/-- Claim C6: a worker's iteration is blocked exactly while its wait
predicate (`stop_flag || !jobs.empty()`) is false; pushing a job makes the
predicate true, raising the stop flags in the destructor makes it true, and
when the stop flag is set with the job queue empty the iteration exits the
loop instead of blocking or popping. -/
theorem worker_wakes_on_push_or_stop_and_exits (s : PoolState) (k : Nat) :
    (Worker.iteration s k = .blocked ↔ ¬ Worker.wakeCond s k) ∧
    (∀ j, Worker.wakeCond (WorkerPool.set_job s j) k) ∧
    (k < s.worker_stop_flags.length → Worker.wakeCond (WorkerPool.destruct s) k) ∧
    (s.worker_stop_flags.getD k false = true → s.jobs = [] → Worker.iteration s k = .exit) := by
  refine ⟨?_, ?_, ?_, ?_⟩
  · cases hj : s.jobs with
    | nil =>
      cases hf : s.worker_stop_flags.getD k false with
      | false => simp [Worker.iteration, Worker.wakeCond, hj, hf]
      | true => simp [Worker.iteration, Worker.wakeCond, hj, hf]
    | cons a t =>
      cases hf : s.worker_stop_flags.getD k false with
      | false => simp [Worker.iteration, Worker.wakeCond, hj, hf]
      | true => simp [Worker.iteration, Worker.wakeCond, hj, hf]
  · intro j
    right
    simp [WorkerPool.set_job]
  · intro hk
    left
    show (s.worker_stop_flags.map (fun _ => true)).getD k false = true
    rw [List.getD_eq_getElem?_getD, List.getElem?_map, List.getElem?_eq_getElem hk]
    rfl
  · intro hf hj
    unfold Worker.iteration
    have h1 : ¬(s.worker_stop_flags.getD k false = false ∧ s.jobs.isEmpty = true) := by
      rw [hf]; simp
    have h2 : s.worker_stop_flags.getD k false = true ∧ s.jobs.isEmpty = true :=
      ⟨hf, by rw [hj]; rfl⟩
    rw [if_neg h1, if_pos h2]

/-- Witness for C6: at a destructed fresh pool, worker 0 exits. -/
theorem worker_wakes_on_push_or_stop_and_exits_demo :
    Worker.iteration (WorkerPool.destruct demoS0) 0 = .exit :=
  (worker_wakes_on_push_or_stop_and_exits (WorkerPool.destruct demoS0) 0).2.2.2 (by decide) rfl

/-- Claim C7: within one worker-loop iteration, the job-queue mutex is no
longer held when the job function is invoked and when the promise is
fulfilled: the `unlock` statement strictly precedes the invocation, and the
lock state accumulated over the statements before the invocation (and
before the fulfilment) is "not held". -/
theorem job_invocation_outside_jobs_lock :
    Prim.invokeJob ∈ worker_loop_prims ∧
    Prim.fulfillPromise ∈ worker_loop_prims ∧
    jobsLockHeld (worker_loop_prims.take (worker_loop_prims.indexOf Prim.invokeJob)) = false ∧
    jobsLockHeld (worker_loop_prims.take (worker_loop_prims.indexOf Prim.fulfillPromise)) = false ∧
    worker_loop_prims.indexOf (Prim.unlock MutexId.jobsMutex) < worker_loop_prims.indexOf Prim.invokeJob := by
  decide

/-- Claim C8: whenever any of the three input strings fails integer parsing,
`calculate_square_roots` still returns a string — the echoed header followed
by the text of the caught exception — rather than letting the exception
escape. -/
theorem parse_failure_encoded_in_result (a b c : String)
    (h : stoiFails a = true ∨ stoiFails b = true ∨ stoiFails c = true) :
    calculate_square_roots a b c = answer_header a b c ++ "invalid argument" ∨
    calculate_square_roots a b c = answer_header a b c ++ "out of range" := by
  unfold stoiFails at h
  rcases ha : stoi a with ea | va
  · cases ea <;> simp [calculate_square_roots, ha]
  · rcases hb : stoi b with eb | vb
    · cases eb <;> simp [calculate_square_roots, ha, hb]
    · rcases hc : stoi c with ec | vc
      · cases ec <;> simp [calculate_square_roots, ha, hb, hc]
      · rw [ha, hb, hc] at h
        simp at h

/-- Witness for C8 at an unparsable first token. -/
theorem parse_failure_encoded_in_result_demo :
    calculate_square_roots "x" "1" "1" = answer_header "x" "1" "1" ++ "invalid argument" ∨
    calculate_square_roots "x" "1" "1" = answer_header "x" "1" "1" ++ "out of range" :=
  parse_failure_encoded_in_result "x" "1" "1" (Or.inl (by decide))

/-- Claim C9 counterexample: the constructor's default worker count equals
the hardware parallelism itself — at hardware parallelism 8 the default is
8, not 8 - 1. -/
theorem default_thread_count_not_minus_one :
    WorkerPool.default_num_threads 8 = 8 ∧ WorkerPool.default_num_threads 8 ≠ 8 - 1 := by
  decide

/-- Claim C9 (amended): the default worker count equals the host's hardware
parallelism exactly, and the program's entry point instead constructs the
pool with hardware parallelism minus two (one headroom thread for the
producer reading stdin and one for the printer thread). -/
theorem default_thread_count_is_hardware_concurrency (hardware_concurrency : Nat) :
    WorkerPool.default_num_threads hardware_concurrency = hardware_concurrency ∧
    main_num_threads hardware_concurrency = hardware_concurrency - 2 :=
  ⟨rfl, rfl⟩

/-- Claim C10 counterexample: with the first two strings parsing to 0 but an
unparsable third string, the result is the invalid-argument text, not the
any-x answer — so the result is not independent of the third string. -/
theorem any_x_needs_parsable_third_string :
    stoi "0" = .ok 0 ∧ stoiFails "abc" = true ∧
    calculate_square_roots "0" "0" "abc" = answer_header "0" "0" "abc" ++ "invalid argument" ∧
    calculate_square_roots "0" "0" "abc" ≠ answer_header "0" "0" "abc" ++ "(x ∈ R)" := by
  refine ⟨rfl, by decide, by decide, by decide⟩

/-- Claim C10 (amended): whenever all three strings parse, with a = 0 and
b = 0, the result is the any-x answer `(x ∈ R)` regardless of the parsed
value of c — including nonzero c, where the equation `0 = c` has no
solution. -/
theorem zero_a_zero_b_gives_any_x (a_str b_str c_str : String) (n : Int)
    (ha : stoi a_str = .ok 0) (hb : stoi b_str = .ok 0) (hc : stoi c_str = .ok n) :
    calculate_square_roots a_str b_str c_str = answer_header a_str b_str c_str ++ "(x ∈ R)" := by
  unfold calculate_square_roots
  rw [ha, hb, hc]
  rfl

/-- Witness for the amended C10 at `("0", "0", "5")`, where `0 = 5` has no
solution yet the any-x answer is produced. -/
theorem zero_a_zero_b_gives_any_x_demo :
    calculate_square_roots "0" "0" "5" = answer_header "0" "0" "5" ++ "(x ∈ R)" :=
  zero_a_zero_b_gives_any_x "0" "0" "5" 5 rfl rfl rfl
